import Mathlib

/-!
Verification of the streaming agent loop of the necocode repository
(`src/core/src/api/anthropic.rs`): the SSE stream decoder
(`parse_sse_stream`), the tool-call aggregator (`ToolCallCollector`) and
the agent-loop driver (`Client::run_agent_loop_stream`).

Modelling conventions:
* Rust `String` is modelled as `List Char` (`Str`); SSE chunks split at
  UTF-8 code-point boundaries are therefore exactly arbitrary `Str` chunks.
* `serde_json::Value` is modelled by `Json` below; `serde_json::from_str`
  by the executable recursive-descent parser `parseJson` (standard JSON
  grammar; numbers restricted to integers and string escapes to the
  non-`\u` ones, which covers every payload these
  claims exchange); `Value::to_string()` by `Json.render`.  `Value::default()` is
  `Json.null`, exactly as in serde.
* Fallible operations return `Option`/`Except`.
-/

abbrev Str := List Char

/-- Left brace character, kept out of string literals. -/
def lbrace : Char := Char.ofNat 123

/-- Right brace character, kept out of string literals. -/
def rbrace : Char := Char.ofNat 125

/-- Model of `serde_json::Value`. -/
inductive Json where
  | null : Json
  | bool (b : Bool) : Json
  | num (n : Int) : Json
  | str (s : Str) : Json
  | arr (elems : List Json) : Json
  | obj (members : List (Str × Json)) : Json

/-- Whitespace accepted by the JSON grammar. -/
def skipWs : Str → Str
  | [] => []
  | c :: rest =>
    if c = ' ' ∨ c = '\n' ∨ c = '\t' ∨ c = '\r' then skipWs rest else c :: rest

/-- Decode a JSON string escape character. -/
def escChar (e : Char) : Option Char :=
  if e = '"' then some '"'
  else if e = '\\' then some '\\'
  else if e = '/' then some '/'
  else if e = 'n' then some '\n'
  else if e = 't' then some '\t'
  else if e = 'r' then some '\r'
  else if e = 'b' then some (Char.ofNat 8)
  else if e = 'f' then some (Char.ofNat 12)
  else none

/-- Parse the body of a JSON string literal (after the opening quote),
returning the decoded content and the remaining input. -/
def parseStrLit : Str → Option (Str × Str)
  | [] => none
  | c :: rest =>
    if c = '"' then some ([], rest)
    else if c = '\\' then
      match rest with
      | [] => none
      | e :: rest2 =>
        match escChar e with
        | some d => (parseStrLit rest2).map (fun p => (d :: p.1, p.2))
        | none => none
    else (parseStrLit rest).map (fun p => (c :: p.1, p.2))

/-- Take a maximal run of decimal digits. -/
def takeDigits : Str → Str × Str
  | [] => ([], [])
  | c :: rest =>
    if c.isDigit then
      let p := takeDigits rest
      (c :: p.1, p.2)
    else ([], c :: rest)

/-- Interpret a digit run as a natural number. -/
def digitsToNat (ds : Str) : Nat :=
  ds.foldl (fun a c => a * 10 + (c.toNat - 48)) 0

mutual

/-- Parse one JSON value; fuel-driven recursive descent. -/
def parseVal : Nat → Str → Option (Json × Str)
  | 0, _ => none
  | fuel + 1, s =>
    match skipWs s with
    | [] => none
    | c :: rest =>
      if c = 'n' then
        match rest with
        | 'u' :: 'l' :: 'l' :: r => some (Json.null, r)
        | _ => none
      else if c = 't' then
        match rest with
        | 'r' :: 'u' :: 'e' :: r => some (Json.bool true, r)
        | _ => none
      else if c = 'f' then
        match rest with
        | 'a' :: 'l' :: 's' :: 'e' :: r => some (Json.bool false, r)
        | _ => none
      else if c = '"' then
        (parseStrLit rest).map (fun p => (Json.str p.1, p.2))
      else if c = '[' then
        match skipWs rest with
        | ']' :: r => some (Json.arr [], r)
        | r => (parseElems fuel r).map (fun p => (Json.arr p.1, p.2))
      else if c = lbrace then
        match skipWs rest with
        | d :: r2 =>
          if d = rbrace then some (Json.obj [], r2)
          else (parseMembers fuel (d :: r2)).map (fun p => (Json.obj p.1, p.2))
        | [] => none
      else if c = '-' then
        match takeDigits rest with
        | ([], _) => none
        | (ds, r) => some (Json.num (-(digitsToNat ds : Int)), r)
      else if c.isDigit then
        let p := takeDigits (c :: rest)
        some (Json.num (digitsToNat p.1), p.2)
      else none

/-- Parse a non-empty comma-separated element list up to `]`. -/
def parseElems : Nat → Str → Option (List Json × Str)
  | 0, _ => none
  | fuel + 1, s =>
    match parseVal fuel s with
    | none => none
    | some (v, r) =>
      match skipWs r with
      | ',' :: r2 => (parseElems fuel r2).map (fun p => (v :: p.1, p.2))
      | ']' :: r2 => some ([v], r2)
      | _ => none

/-- Parse a non-empty comma-separated member list up to the closing brace. -/
def parseMembers : Nat → Str → Option (List (Str × Json) × Str)
  | 0, _ => none
  | fuel + 1, s =>
    match skipWs s with
    | '"' :: r =>
      match parseStrLit r with
      | none => none
      | some (k, r2) =>
        match skipWs r2 with
        | ':' :: r3 =>
          match parseVal fuel r3 with
          | none => none
          | some (v, r4) =>
            match skipWs r4 with
            | ',' :: r5 => (parseMembers fuel r5).map (fun p => ((k, v) :: p.1, p.2))
            | d :: r5 => if d = rbrace then some ([(k, v)], r5) else none
            | _ => none
        | _ => none
    | _ => none

end

/-- Model of `serde_json::from_str::<Value>`: parse a complete JSON
document, requiring only trailing whitespace after the value. -/
def parseJson (s : Str) : Option Json :=
  match parseVal (2 * s.length + 2) s with
  | some (v, rest) => if skipWs rest = [] then some v else none
  | none => none

/-- Escape a string for JSON output. -/
def renderEsc : Str → Str
  | [] => []
  | c :: rest =>
    if c = '"' then '\\' :: '"' :: renderEsc rest
    else if c = '\\' then '\\' :: '\\' :: renderEsc rest
    else if c = '\n' then '\\' :: 'n' :: renderEsc rest
    else if c = '\t' then '\\' :: 't' :: renderEsc rest
    else if c = '\r' then '\\' :: 'r' :: renderEsc rest
    else c :: renderEsc rest

/-- Render a JSON string literal. -/
def renderStr (s : Str) : Str := '"' :: renderEsc s ++ ['"']

mutual

/-- Model of `serde_json::Value::to_string()` (compact rendering). -/
def Json.render : Json → Str
  | .null => "null".data
  | .bool true => "true".data
  | .bool false => "false".data
  | .num n => (toString n).data
  | .str s => renderStr s
  | .arr es => '[' :: renderArr es ++ [']']
  | .obj ms => lbrace :: renderObj ms ++ [rbrace]

/-- Render array elements, comma separated. -/
def renderArr : List Json → Str
  | [] => []
  | [v] => Json.render v
  | v :: vs => Json.render v ++ ',' :: renderArr vs

/-- Render object members, comma separated. -/
def renderObj : List (Str × Json) → Str
  | [] => []
  | [kv] => renderStr kv.1 ++ ':' :: Json.render kv.2
  | kv :: ms => renderStr kv.1 ++ ':' :: Json.render kv.2 ++ ',' :: renderObj ms

end

/-- Model of `Value::get(key)` on an object (`None` on other values). -/
def Json.getF : Json → Str → Option Json
  | .obj ms, k => (ms.find? (fun p => p.1 == k)).map (fun p => p.2)
  | _, _ => none

/-- Model of `Value::as_str`. -/
def Json.asStr : Json → Option Str
  | .str s => some s
  | _ => none

/-- Model of `Value::as_object` (returning the member list). -/
def Json.asObj : Json → Option (List (Str × Json))
  | .obj ms => some ms
  | _ => none

/-- Model of `Value::as_u64` (integers in the u64 range). -/
def Json.asU64 : Json → Option Nat
  | .num n => if 0 ≤ n ∧ n < (18446744073709551616 : Int) then some n.toNat else none
  | _ => none


/-- Model of the `ApiError` enum (`thiserror`-derived). -/
inductive ApiErr where
  | network (msg : Str)
  | http (status : Nat) (msg : Str)
  | parse (msg : Str)
  | stream (msg : Str)
  | api (msg : Str)

/-- Model of the `Display` impl generated by `thiserror` for `ApiError`,
used when the loop forwards an error to the renderer. -/
def errToStr : ApiErr → Str
  | .network m => "Network error: ".data ++ m
  | .http s m => "HTTP error ".data ++ (toString s).data ++ ": ".data ++ m
  | .parse m => "Parse error: ".data ++ m
  | .stream m => "Stream error: ".data ++ m
  | .api m => "API error: ".data ++ m

/-- Model of the `ContentBlock` enum (tag `type`): a text block or a
tool-use block. -/
inductive CBlock where
  | text (t : Str)
  | toolUse (id name : Str) (input : Json)

/-- Model of the `Delta` enum (tag `type`): a text delta or an
`input_json_delta` fragment. -/
inductive DeltaEv where
  | text (t : Str)
  | inputJson (pjson : Str)

/-- Model of the internal `StreamEvent` enum produced by the decoder. -/
inductive SEvent where
  | messageStart
  | blockStart (index : Nat) (cb : CBlock)
  | blockDelta (index : Nat) (d : DeltaEv)
  | blockStop (index : Nat)
  | messageDelta
  | messageStop
  | error (e : ApiErr)

/-- Model of `PendingToolCall`. -/
structure Pend where
  id : Str
  name : Str
  buf : Str
  completed : Bool

/-- Model of the completed `ToolCall` record. -/
structure ToolCall where
  id : Str
  name : Str
  input : Json

/-- Empty placeholder entry pushed while extending the calls vector. -/
def emptyPend : Pend := ⟨[], [], [], false⟩

/-- Initial argument buffer seeded from the `input` field of a tool-use block:
a string is copied, a non-empty object is stringified, anything else
starts the buffer empty. -/
def initBuf : Json → Str
  | .str s => s
  | .obj [] => []
  | .obj ms => Json.render (.obj ms)
  | _ => []

/-- Extend the calls vector with placeholders until it has `n` slots. -/
def padTo (cs : List Pend) (n : Nat) : List Pend :=
  cs ++ List.replicate (n - cs.length) emptyPend

/-- Apply `f` to slot `i` if it exists, otherwise leave the vector alone
(the defensive `get_mut` pattern of the source). -/
def modifySlot (cs : List Pend) (i : Nat) (f : Pend → Pend) : List Pend :=
  match cs[i]? with
  | some c => cs.set i (f c)
  | none => cs

/-- Model of `ToolCallCollector::process_event`: the collector state is
the `calls` vector. -/
def processEvent (cs : List Pend) : SEvent → List Pend
  | .blockStart i (.toolUse id name input) =>
    (padTo cs (i + 1)).set i ⟨id, name, initBuf input, false⟩
  | .blockDelta i d =>
    match d with
    | .inputJson pj => modifySlot cs i (fun c => { c with buf := c.buf ++ pj })
    | .text _ => cs
  | .blockStop i => modifySlot cs i (fun c => { c with completed := true })
  | _ => cs

/-- Model of `ToolCallCollector::has_completed_calls`. -/
def hasCompleted (cs : List Pend) : Bool := cs.any (fun c => c.completed)

/-- Model of `ToolCallCollector::take_completed`: map the completed slots
to `ToolCall`s (parsing each buffer, `Value::default()` i.e. `Json.null`
on failure) and clear the vector. -/
def takeCompleted (cs : List Pend) : List ToolCall × List Pend :=
  ((cs.filter (fun c => c.completed)).map
      (fun c => ⟨c.id, c.name, (parseJson c.buf).getD Json.null⟩),
    [])

/-- Model of `ToolCallCollector::is_active`. -/
def isActive (cs : List Pend) : Bool := !cs.isEmpty

/-- Match the SSE `data: ` line tag, returning the payload. -/
def dropDataTag : Str → Option Str
  | 'd' :: 'a' :: 't' :: 'a' :: ':' :: ' ' :: rest => some rest
  | _ => none

/-- Model of `u64 -> u32` `try_into().unwrap_or(0)` applied to indices. -/
def toIdx (n : Nat) : Nat := if n < 4294967296 then n else 0

/-- Index extraction used by the decoder:
`value.get("index").and_then(Value::as_u64).unwrap_or(0).try_into().unwrap_or(0)`. -/
def readIdx (v : Json) : Nat := toIdx (((v.getF "index".data).bind Json.asU64).getD 0)

/-- Serde deserialization of `ContentBlock` (tag `type`; unknown fields
ignored, missing required fields fail). -/
def decodeCB (j : Json) : Option CBlock :=
  match j.getF "type".data with
  | some (.str t) =>
    if t = "text".data then
      match j.getF "text".data with
      | some (.str s) => some (.text s)
      | _ => none
    else if t = "tool_use".data then
      match j.getF "id".data, j.getF "name".data, j.getF "input".data with
      | some (.str id), some (.str name), some input => some (.toolUse id name input)
      | _, _, _ => none
    else none
  | _ => none

/-- Serde deserialization of `Delta` (tag `type`). -/
def decodeDelta (j : Json) : Option DeltaEv :=
  match j.getF "type".data with
  | some (.str t) =>
    if t = "text_delta".data then
      match j.getF "text".data with
      | some (.str s) => some (.text s)
      | _ => none
    else if t = "input_json_delta".data then
      match j.getF "partial_json".data with
      | some (.str s) => some (.inputJson s)
      | _ => none
    else none
  | _ => none

/-- Process one complete SSE line exactly as the body of the framing loop
in `parse_sse_stream` does: `none` means no item is yielded (blank line,
non-`data:` line, JSON without a `type` field, `content_block_start`
without a `content_block` field, unknown `type`). -/
def processLine (line : Str) : Option (Except ApiErr SEvent) :=
  if line = [] then none
  else
    match dropDataTag line with
    | none => none
    | some payload =>
      if payload = "[DONE]".data then some (.ok .messageStop)
      else
        match parseJson payload with
        | none => some (.error (.parse "Failed to parse SSE data".data))
        | some v =>
          match v.getF "type".data with
          | some (.str t) =>
            if t = "message_start".data then some (.ok .messageStart)
            else if t = "content_block_start".data then
              match v.getF "content_block".data with
              | some blk =>
                some (.ok (.blockStart (readIdx v) ((decodeCB blk).getD (.text []))))
              | none => none
            else if t = "content_block_delta".data then
              some (.ok (.blockDelta (readIdx v)
                ((decodeDelta ((v.getF "delta".data).getD Json.null)).getD (.text []))))
            else if t = "content_block_stop".data then
              some (.ok (.blockStop (readIdx v)))
            else if t = "message_delta".data then some (.ok .messageDelta)
            else if t = "message_stop".data then some (.ok .messageStop)
            else if t = "error".data then
              some (.ok (.error (.api
                ((((v.getF "error".data).bind (fun e => e.getF "message".data)).bind
                    Json.asStr).getD "Unknown error".data))))
            else none
          | _ => none

/-- Split a buffer into the complete (newline-terminated) lines and the
trailing partial line, mirroring the `while let Some(pos) = buffer.find('\n')`
framing loop. -/
def splitComplete : Str → List Str × Str
  | [] => ([], [])
  | c :: rest =>
    if c = '\n' then
      let p := splitComplete rest
      ([] :: p.1, p.2)
    else
      let p := splitComplete rest
      match p.1 with
      | [] => ([], c :: p.2)
      | l :: ls => ((c :: l) :: ls, p.2)

/-- Model of `parse_sse_stream`: consume the chunk sequence of the HTTP
body (each chunk either text or a transport error), maintaining the
rolling line buffer.  A transport error yields a `StreamError` item and
processing continues with the next chunk (`continue` in the source); a
text chunk is appended to the buffer and every complete line is processed
in order. -/
def decodeStream : List (Except Str Str) → Str → List (Except ApiErr SEvent)
  | [], _ => []
  | .error e :: cs, buf =>
    .error (.stream ("Failed to read stream: ".data ++ e)) :: decodeStream cs buf
  | .ok c :: cs, buf =>
    let p := splitComplete (buf ++ c)
    p.1.filterMap processLine ++ decodeStream cs p.2

/-- Model of the UI-facing `CoreEvent` enum (`src/core/src/events.rs`). -/
inductive CoreEvent where
  | textDelta (t : Str)
  | toolCallStart (id name : Str)
  | toolExecuting (name : Str)
  | toolResult (name result : Str)
  | errorEv (msg : Str)
  | messageStart
  | messageStop

/-- Conversation-history content block as pushed into the `messages`
vector by the driver (the `json!` literals in `run_agent_loop_stream`). -/
inductive CBlockOut where
  | text (t : Str)
  | toolUse (id name : Str) (input : Json)
  | toolResult (toolUseId : Str) (content : Str)

/-- Conversation-history message: a role (`"assistant"` / `"user"`) and
content blocks. -/
structure Msg where
  role : Str
  content : List CBlockOut

/-- Drain one decoded response: iterate the stream items, feeding the
collector and emitting translated `CoreEvent`s, mirroring the
`while let Some(event_result) = stream.next()` loop.  Returns the
accumulated `current_text`, the collector state, the emitted events and
`some e` when an error item was reached (the `event_result?` early
return); `MessageStop` breaks out of the drain. -/
def drainItems : List (Except ApiErr SEvent) → Str → List Pend → List CoreEvent →
    Str × List Pend × List CoreEvent × Option ApiErr
  | [], ct, cs, evs => (ct, cs, evs, none)
  | .error e :: _, ct, cs, evs => (ct, cs, evs, some e)
  | .ok ev :: rest, ct, cs, evs =>
    match ev with
    | .blockDelta i (.text t) =>
      drainItems rest (ct ++ t) (processEvent cs (.blockDelta i (.text t)))
        (evs ++ [.textDelta t])
    | .blockStart i (.toolUse id name input) =>
      drainItems rest ct (processEvent cs (.blockStart i (.toolUse id name input)))
        (evs ++ [.toolCallStart id name])
    | .error e =>
      drainItems rest ct (processEvent cs (.error e)) (evs ++ [.errorEv (errToStr e)])
    | .messageStop => (ct, cs, evs ++ [.messageStop], none)
    | other => drainItems rest ct (processEvent cs other) evs

/-- Execute the completed tool calls in order, mirroring the
`for call in tool_calls` loop: emit `ToolExecuting`, fail the loop with a
`ParseError` when the input of a call is not a JSON object, otherwise invoke
the tool executor `rt`, emit `ToolResult` and append a user message with
the tool-result block.  Messages and events appended before a failure are
kept (the Rust `messages` vector is mutated in place). -/
def execCalls (rt : Str → List (Str × Json) → Str) :
    List ToolCall → List Msg → List CoreEvent → List Msg × List CoreEvent × Option ApiErr
  | [], msgs, evs => (msgs, evs, none)
  | c :: rest, msgs, evs =>
    let evs2 := evs ++ [CoreEvent.toolExecuting c.name]
    match c.input.asObj with
    | none =>
      (msgs, evs2, some (.parse ("Tool input is not an object for tool: ".data ++ c.name)))
    | some ob =>
      let r := rt c.name ob
      execCalls rt rest (msgs ++ [⟨"user".data, [.toolResult c.id r]⟩])
        (evs2 ++ [.toolResult c.name r])

/-- Result of a loop invocation. -/
inductive Outcome where
  | ok
  | err (e : ApiErr)
  | scriptEnded

/-- Final state of a modelled `run_agent_loop_stream` invocation: the
conversation history, the events sent to the renderer, the outcome and
the number of requests issued. -/
structure LoopRes where
  msgs : List Msg
  events : List CoreEvent
  outcome : Outcome
  requests : Nat

/-- Model of `Client::run_agent_loop_stream`.  The network is scripted:
each loop round consumes the next entry of `script`, an
`Except ApiErr (List (Except ApiErr SEvent))` — `error` models
`create_message_stream` failing (NetworkError / non-2xx HttpError),
`ok items` models the decoded SSE item stream of a successful response.
`rt` is the external tool executor (`Client::run_tool`, which always
returns a result string).  Each round sends `MessageStart`, issues the
request, drains the stream, then either executes the completed tool
calls and loops, appends the final assistant text message and stops, or
stops without touching history.  `scriptEnded` marks the model running
out of scripted responses while the driver wants to issue another
request. -/
def runLoop (rt : Str → List (Str × Json) → Str) :
    List (Except ApiErr (List (Except ApiErr SEvent))) →
    List Msg → Str → List Pend → List CoreEvent → LoopRes
  | [], msgs, _, _, evs => ⟨msgs, evs, .scriptEnded, 0⟩
  | resp :: rest, msgs, ct, cs, evs =>
    let evs1 := evs ++ [CoreEvent.messageStart]
    match resp with
    | .error e => ⟨msgs, evs1, .err e, 1⟩
    | .ok items =>
      match drainItems items ct cs evs1 with
      | (_, _, evs2, some e) => ⟨msgs, evs2, .err e, 1⟩
      | (ct2, cs2, evs2, none) =>
        if hasCompleted cs2 then
          let calls := (takeCompleted cs2).1
          let amsg : Msg := ⟨"assistant".data,
            CBlockOut.text ct2 :: calls.map (fun c => .toolUse c.id c.name c.input)⟩
          match execCalls rt calls (msgs ++ [amsg]) evs2 with
          | (msgs3, evs3, some e) => ⟨msgs3, evs3, .err e, 1⟩
          | (msgs3, evs3, none) =>
            let res := runLoop rt rest msgs3 [] ([] : List Pend) evs3
            ⟨res.msgs, res.events, res.outcome, res.requests + 1⟩
        else if ct2 ≠ [] then
          ⟨msgs ++ [⟨"assistant".data, [.text ct2]⟩], evs2, .ok, 1⟩
        else ⟨msgs, evs2, .ok, 1⟩

/-- Entry point: fresh collector and empty `current_text`, as in the
source. -/
def runAgentLoop (rt : Str → List (Str × Json) → Str)
    (script : List (Except ApiErr (List (Except ApiErr SEvent))))
    (msgs : List Msg) : LoopRes :=
  runLoop rt script msgs [] [] []

example : parseJson "[1, -2]".data = some (Json.arr [Json.num 1, Json.num (-2)]) := rfl

example : parseJson (Json.render (Json.obj [("a".data, Json.str "x".data)]))
    = some (Json.obj [("a".data, Json.str "x".data)]) := rfl

example : parseJson "notjson".data = none := rfl

/-! Collector lemmas. -/

theorem padTo_nil (n : Nat) : padTo [] n = List.replicate n emptyPend := by
  simp [padTo]

theorem replicate_set (i : Nat) (x e : Pend) :
    (List.replicate (i + 1) e).set i x = List.replicate i e ++ [x] := by
  induction i with
  | zero => rfl
  | succ i ih =>
    rw [List.replicate_succ e (i + 1), List.set_cons_succ]
    rw [ih]
    simp [List.replicate_succ]

theorem set_concat (pre : List Pend) (c x : Pend) :
    (pre ++ [c]).set pre.length x = pre ++ [x] := by
  induction pre with
  | nil => rfl
  | cons p pre ih => simp [List.set_cons_succ, ih]

theorem modifySlot_concat (pre : List Pend) (c : Pend) (f : Pend → Pend) :
    modifySlot (pre ++ [c]) pre.length f = pre ++ [f c] := by
  simp [modifySlot, List.getElem?_concat_length, set_concat]

theorem foldDeltas (i : Nat) (id name : Str) (frags : List Str) (buf : Str) :
    List.foldl processEvent (List.replicate i emptyPend ++ [⟨id, name, buf, false⟩])
      (frags.map (fun f => SEvent.blockDelta i (.inputJson f)))
    = List.replicate i emptyPend ++ [⟨id, name, buf ++ frags.flatten, false⟩] := by
  induction frags generalizing buf with
  | nil => simp
  | cons f fs ih =>
    have hstep : processEvent (List.replicate i emptyPend ++ [⟨id, name, buf, false⟩])
        (SEvent.blockDelta i (.inputJson f))
        = List.replicate i emptyPend ++ [⟨id, name, buf ++ f, false⟩] := by
      have := modifySlot_concat (List.replicate i emptyPend) ⟨id, name, buf, false⟩
        (fun c => { c with buf := c.buf ++ f })
      simpa [processEvent, List.length_replicate] using this
    simp only [List.map_cons, List.foldl_cons, hstep, ih, List.flatten_cons,
      List.append_assoc]

theorem filter_completed_replicate (i : Nat) :
    (List.replicate i emptyPend).filter (fun c => c.completed) = [] := by
  induction i with
  | zero => rfl
  | succ i ih => simp [List.replicate_succ, List.filter_cons, emptyPend, ih]

/-- C1: for a stream consisting of one tool-use ContentBlockStart at
index `i` (initial input the empty string or the empty object), `N`
input_json_delta fragments at index `i`, and a ContentBlockStop at index
`i`, `take_completed` on a fresh collector yields exactly one call whose
id and name come from the start event and whose input is the JSON value
parsed from the in-order concatenation of the fragments, provided that
concatenation parses. -/
theorem c1_aggregator_completeness (i : Nat) (id name : Str) (input : Json)
    (frags : List Str) (v : Json)
    (hinp : input = Json.str [] ∨ input = Json.obj [])
    (hv : parseJson frags.flatten = some v) :
    takeCompleted (List.foldl processEvent []
      (SEvent.blockStart i (.toolUse id name input) ::
        (frags.map (fun f => SEvent.blockDelta i (.inputJson f)) ++ [SEvent.blockStop i])))
    = ([⟨id, name, v⟩], []) := by
  have hinit : initBuf input = [] := by
    rcases hinp with h | h <;> subst h <;> rfl
  have hstart : processEvent [] (SEvent.blockStart i (.toolUse id name input))
      = List.replicate i emptyPend ++ [⟨id, name, [], false⟩] := by
    simp [processEvent, padTo_nil, hinit, replicate_set]
  have hstop : processEvent
      (List.replicate i emptyPend ++ [⟨id, name, frags.flatten, false⟩]) (SEvent.blockStop i)
      = List.replicate i emptyPend ++ [⟨id, name, frags.flatten, true⟩] := by
    have := modifySlot_concat (List.replicate i emptyPend) ⟨id, name, frags.flatten, false⟩
      (fun c => { c with completed := true })
    simpa [processEvent, List.length_replicate] using this
  rw [List.foldl_cons, hstart, List.foldl_append]
  rw [foldDeltas]
  simp only [List.nil_append, List.foldl_cons, List.foldl_nil, hstop]
  simp [takeCompleted, List.filter_append, filter_completed_replicate, List.filter_cons, hv]

/-- Witness for C1 at a concrete stream: index 1, two fragments forming
the JSON array `[1,2]`. -/
theorem c1_aggregator_completeness_witness :
    parseJson (List.flatten ["[1".data, ",2]".data])
      = some (Json.arr [Json.num 1, Json.num 2])
    ∧ takeCompleted (List.foldl processEvent []
        (SEvent.blockStart 1 (.toolUse "t".data "read".data (Json.str [])) ::
          ((["[1".data, ",2]".data]).map (fun f => SEvent.blockDelta 1 (.inputJson f)) ++
            [SEvent.blockStop 1])))
      = ([⟨"t".data, "read".data, Json.arr [Json.num 1, Json.num 2]⟩], []) :=
  ⟨rfl, c1_aggregator_completeness 1 "t".data "read".data (Json.str [])
    ["[1".data, ",2]".data] (Json.arr [Json.num 1, Json.num 2]) (Or.inl rfl) rfl⟩

theorem enum_filter_map_eq (mk : Pend → ToolCall) :
    ∀ (cs : List Pend) (n : Nat),
      ((List.enumFrom n cs).filter (fun p => p.2.completed)).map (fun p => mk p.2)
      = (cs.filter (fun c => c.completed)).map mk := by
  intro cs
  induction cs with
  | nil => intro n; rfl
  | cons c cs ih =>
    intro n
    by_cases h : c.completed
    · simp [List.enumFrom_cons, List.filter_cons, h, ih]
    · simp [List.enumFrom_cons, List.filter_cons, h, ih]

theorem enum_filter_fst_bound :
    ∀ (cs : List Pend) (n m : Nat),
      m ∈ ((List.enumFrom n cs).filter (fun p => p.2.completed)).map Prod.fst → n ≤ m := by
  intro cs
  induction cs with
  | nil => intro n m h; simp at h
  | cons c cs ih =>
    intro n m h
    by_cases hc : c.completed
    · simp [List.enumFrom_cons, List.filter_cons, hc] at h
      rcases h with h | h
      · omega
      · have := ih (n + 1) m (by simpa using h)
        omega
    · simp [List.enumFrom_cons, List.filter_cons, hc] at h
      have := ih (n + 1) m (by simpa using h)
      omega

theorem enum_filter_fst_pairwise :
    ∀ (cs : List Pend) (n : Nat),
      List.Pairwise (fun a b => a < b)
        (((List.enumFrom n cs).filter (fun p => p.2.completed)).map Prod.fst) := by
  intro cs
  induction cs with
  | nil => intro n; simp
  | cons c cs ih =>
    intro n
    by_cases hc : c.completed
    · simp only [List.enumFrom_cons, List.filter_cons, hc, if_pos rfl, List.map_cons]
      refine List.Pairwise.cons ?_ (ih (n + 1))
      intro m hm
      have := enum_filter_fst_bound cs (n + 1) m hm
      omega
    · simpa [List.enumFrom_cons, List.filter_cons, hc] using ih (n + 1)

/-- C7: an `input_json_delta` at index `i` appends only to the
argument buffer of slot `i`, leaving every other slot untouched and the
id, name and completed flag of slot `i` unchanged; and `take_completed` returns the
completed calls in strictly ascending content-block index order (the
returned list is the completed slots in slot order, whose indices are
pairwise increasing). -/
theorem c7_delta_independence_and_order (cs : List Pend) (i : Nat) (pj : Str) :
    (∀ j, j ≠ i → (processEvent cs (.blockDelta i (.inputJson pj)))[j]? = cs[j]?)
    ∧ (∀ c, cs[i]? = some c →
        (processEvent cs (.blockDelta i (.inputJson pj)))[i]?
          = some ⟨c.id, c.name, c.buf ++ pj, c.completed⟩)
    ∧ (takeCompleted cs).1
        = ((cs.enum.filter (fun p => p.2.completed)).map
            (fun p => (⟨p.2.id, p.2.name, (parseJson p.2.buf).getD Json.null⟩ : ToolCall)))
    ∧ List.Pairwise (fun a b => a < b)
        ((cs.enum.filter (fun p => p.2.completed)).map Prod.fst) := by
  refine ⟨?_, ?_, ?_, ?_⟩
  · intro j hj
    simp only [processEvent, modifySlot]
    match h : cs[i]? with
    | some c => exact List.getElem?_set_ne (fun he => hj he.symm)
    | none => rfl
  · intro c hc
    have hlt : i < cs.length := by
      have := List.getElem?_eq_some_iff.mp hc
      exact this.1
    simp only [processEvent, modifySlot, hc]
    simpa using List.getElem?_set_self hlt
  · have := enum_filter_map_eq
      (fun c => (⟨c.id, c.name, (parseJson c.buf).getD Json.null⟩ : ToolCall)) cs 0
    simpa [takeCompleted, List.enum] using this.symm
  · simpa [List.enum] using enum_filter_fst_pairwise cs 0

/-- Witness for C7 at a concrete collector state with two slots. -/
theorem c7_delta_independence_and_order_witness :
    ((processEvent [⟨"a".data, "x".data, "1".data, true⟩, ⟨"b".data, "y".data, "2".data, false⟩]
        (.blockDelta 1 (.inputJson "z".data)))[0]?
      = [(⟨"a".data, "x".data, "1".data, true⟩ : Pend), ⟨"b".data, "y".data, "2".data, false⟩][0]?)
    ∧ ((processEvent [⟨"a".data, "x".data, "1".data, true⟩, ⟨"b".data, "y".data, "2".data, false⟩]
        (.blockDelta 1 (.inputJson "z".data)))[1]?
      = some ⟨"b".data, "y".data, "2z".data, false⟩)
    ∧ List.Pairwise (fun a b => a < b)
        ((([(⟨"a".data, "x".data, "1".data, true⟩ : Pend),
            ⟨"b".data, "y".data, "2".data, false⟩].enum).filter
              (fun p => p.2.completed)).map Prod.fst) := by
  refine ⟨?_, ?_, ?_⟩
  · exact (c7_delta_independence_and_order
      [⟨"a".data, "x".data, "1".data, true⟩, ⟨"b".data, "y".data, "2".data, false⟩]
      1 "z".data).1 0 (by decide)
  · exact (c7_delta_independence_and_order
      [⟨"a".data, "x".data, "1".data, true⟩, ⟨"b".data, "y".data, "2".data, false⟩]
      1 "z".data).2.1 ⟨"b".data, "y".data, "2".data, false⟩ rfl
  · exact (c7_delta_independence_and_order
      [⟨"a".data, "x".data, "1".data, true⟩, ⟨"b".data, "y".data, "2".data, false⟩]
      1 "z".data).2.2.2

/-- C6: a loop round whose request fails (NetworkError from sending, or
HttpError from a non-2xx status) returns that error and leaves the
conversation history exactly as it was when the request was issued: no
assistant message, tool-use block or tool-result message is appended. -/
theorem c6_failed_request_leaves_history (rt : Str → List (Str × Json) → Str)
    (e : ApiErr) (script : List (Except ApiErr (List (Except ApiErr SEvent))))
    (msgs : List Msg) (ct : Str) (cs : List Pend) (evs : List CoreEvent)
    (he : (∃ m, e = .network m) ∨ ∃ s m, e = .http s m) :
    runLoop rt (.error e :: script) msgs ct cs evs
      = ⟨msgs, evs ++ [CoreEvent.messageStart], .err e, 1⟩ := rfl

/-- Witness for C6 at a concrete failing round. -/
theorem c6_failed_request_leaves_history_witness :
    runLoop (fun n _ => n) [.error (.network "down".data)]
        [⟨"user".data, [.text "hi".data]⟩] [] [] []
      = ⟨[⟨"user".data, [.text "hi".data]⟩], [CoreEvent.messageStart],
         .err (.network "down".data), 1⟩ :=
  c6_failed_request_leaves_history (fun n _ => n) (.network "down".data) []
    [⟨"user".data, [.text "hi".data]⟩] [] [] [] (Or.inl ⟨"down".data, rfl⟩)

/-- Counterexample to C5: after the server-reported `error` event the
driver keeps draining — the following text delta is still processed (it
is forwarded to the renderer and ends up in the final assistant
message), so the ApiError does not stop the streaming iteration. -/
theorem c5_counterexample :
    runAgentLoop (fun n _ => "error: Unknown tool: ".data ++ n)
      [.ok [.ok (.error (.api "boom".data)),
            .ok (.blockDelta 0 (.text "x".data)),
            .ok .messageStop]] []
    = ⟨[⟨"assistant".data, [.text "x".data]⟩],
       [.messageStart, .errorEv ("API error: boom".data), .textDelta "x".data, .messageStop],
       .ok, 1⟩ := rfl

/-- C5 as amended: an explicit server `error` event makes the driver
emit an Error StreamEvent carrying the message reported by the server, and draining
then continues with the remaining events of the same response (the event
is a collector no-op); only MessageStop, an error item, or stream end
ends the drain. -/
theorem c5_api_error_emits_and_continues (m : Str) (rest : List (Except ApiErr SEvent))
    (ct : Str) (cs : List Pend) (evs : List CoreEvent) :
    drainItems (.ok (.error (.api m)) :: rest) ct cs evs
      = drainItems rest ct cs (evs ++ [.errorEv ("API error: ".data ++ m)]) := rfl

/-- Counterexample to C9: the decoder emits a StreamError item for the
transport failure and then continues decoding the next chunk, emitting a
further event. -/
theorem c9_counterexample :
    decodeStream [.error "boom".data, .ok "data: [DONE]\n".data] []
      = [.error (.stream ("Failed to read stream: boom".data)), .ok .messageStop] := rfl

/-- C9 as amended: a transport-level read error is surfaced as a
StreamError item but the decoder continues with the subsequent chunks,
buffer preserved (the `continue` in `parse_sse_stream`); it is the `?` of the agent
loop on stream items that makes the first error item terminal for
a loop invocation. -/
theorem c9_transport_error_continues (e : Str) (cs : List (Except Str Str)) (buf : Str) :
    decodeStream (.error e :: cs) buf
      = .error (.stream ("Failed to read stream: ".data ++ e)) :: decodeStream cs buf := rfl

/-- Counterexample to C2: a completed call whose buffer `xbad` is not
valid JSON gets input `Json.null` (the serde `Value::default()`), not the
empty object, and the loop invocation then fails with a ParseError when
it finds the input is not an object. -/
theorem c2_counterexample :
    (runAgentLoop (fun n _ => "error: Unknown tool: ".data ++ n)
        [.ok [.ok (.blockStart 0 (.toolUse "t1".data "read".data (Json.str []))),
              .ok (.blockDelta 0 (.inputJson ('x' :: "bad".data))),
              .ok (.blockStop 0),
              .ok .messageStop]] []).outcome
      = .err (.parse ("Tool input is not an object for tool: read".data))
    ∧ (takeCompleted [⟨"t1".data, "read".data, 'x' :: "bad".data, true⟩]).1
        = [⟨"t1".data, "read".data, Json.null⟩]
    ∧ Json.null ≠ Json.obj [] :=
  ⟨rfl, rfl, fun h => Json.noConfusion h⟩

/-- C2 as amended: a completed call whose buffer is not valid JSON is
returned by `take_completed` with input `Json.null`, and the agent loop
then returns a ParseError ("Tool input is not an object") for that call
instead of executing it as an empty-input call. -/
theorem c2_malformed_args_null_input_parse_error (id name buf : Str)
    (rt : Str → List (Str × Json) → Str) (msgs : List Msg) (evs : List CoreEvent)
    (h : parseJson buf = none) :
    (takeCompleted [⟨id, name, buf, true⟩]).1 = [⟨id, name, Json.null⟩]
    ∧ execCalls rt [⟨id, name, Json.null⟩] msgs evs
      = (msgs, evs ++ [.toolExecuting name],
         some (.parse ("Tool input is not an object for tool: ".data ++ name))) := by
  constructor
  · simp [takeCompleted, List.filter_cons, h]
  · rfl

/-- Witness for the amended C2 at the concrete buffer `xbad`. -/
theorem c2_malformed_args_null_input_parse_error_witness :
    parseJson ('x' :: "bad".data) = none
    ∧ (takeCompleted [⟨"t1".data, "read".data, 'x' :: "bad".data, true⟩]).1
        = [⟨"t1".data, "read".data, Json.null⟩]
    ∧ execCalls (fun n _ => n) [⟨"t1".data, "read".data, Json.null⟩] [] []
      = ([], [.toolExecuting "read".data],
         some (.parse ("Tool input is not an object for tool: read".data))) := by
  refine ⟨rfl, ?_, ?_⟩
  · exact (c2_malformed_args_null_input_parse_error "t1".data "read".data ('x' :: "bad".data)
      (fun n _ => n) [] [] rfl).1
  · exact (c2_malformed_args_null_input_parse_error "t1".data "read".data ('x' :: "bad".data)
      (fun n _ => n) [] [] rfl).2

theorem execCalls_msgs_extends (rt : Str → List (Str × Json) → Str) :
    ∀ (calls : List ToolCall) (msgs : List Msg) (evs : List CoreEvent),
      ∃ t, (execCalls rt calls msgs evs).1 = msgs ++ t := by
  intro calls
  induction calls with
  | nil => intro msgs evs; exact ⟨[], by simp [execCalls]⟩
  | cons c rest ih =>
    intro msgs evs
    simp only [execCalls]
    match h : c.input.asObj with
    | none => exact ⟨[], by simp⟩
    | some ob =>
      obtain ⟨t, ht⟩ := ih (msgs ++ [⟨"user".data, [.toolResult c.id (rt c.name ob)]⟩])
        ((evs ++ [CoreEvent.toolExecuting c.name]) ++ [.toolResult c.name (rt c.name ob)])
      exact ⟨⟨"user".data, [.toolResult c.id (rt c.name ob)]⟩ :: t, by simpa using ht⟩

theorem runLoop_msgs_extends (rt : Str → List (Str × Json) → Str) :
    ∀ (script : List (Except ApiErr (List (Except ApiErr SEvent))))
      (msgs : List Msg) (ct : Str) (cs : List Pend) (evs : List CoreEvent),
      ∃ t, (runLoop rt script msgs ct cs evs).msgs = msgs ++ t := by
  intro script
  induction script with
  | nil => intro msgs ct cs evs; exact ⟨[], by simp [runLoop]⟩
  | cons resp rest ih =>
    intro msgs ct cs evs
    match resp with
    | .error e => exact ⟨[], by simp [runLoop]⟩
    | .ok items =>
      simp only [runLoop]
      match hd : drainItems items ct cs (evs ++ [CoreEvent.messageStart]) with
      | (ct2, cs2, evs2, some e) => exact ⟨[], by simp⟩
      | (ct2, cs2, evs2, none) =>
        simp only
        by_cases hc : hasCompleted cs2
        · simp only [hc, if_pos]
          set calls := (takeCompleted cs2).1 with hcalls
          set amsg : Msg := ⟨"assistant".data,
            CBlockOut.text ct2 :: calls.map (fun c => .toolUse c.id c.name c.input)⟩ with hamsg
          obtain ⟨t1, ht1⟩ := execCalls_msgs_extends rt calls (msgs ++ [amsg]) evs2
          match he : execCalls rt calls (msgs ++ [amsg]) evs2 with
          | (msgs3, evs3, some e) =>
            refine ⟨amsg :: t1, ?_⟩
            have : msgs3 = (msgs ++ [amsg]) ++ t1 := by rw [he] at ht1; exact ht1
            simp [this]
          | (msgs3, evs3, none) =>
            obtain ⟨t2, ht2⟩ := ih msgs3 [] ([] : List Pend) evs3
            refine ⟨amsg :: (t1 ++ t2), ?_⟩
            have h3 : msgs3 = (msgs ++ [amsg]) ++ t1 := by rw [he] at ht1; exact ht1
            rw [h3] at ht2 ⊢
            simpa using ht2
        · simp only [hc, if_neg, Bool.false_eq_true, not_false_iff]
          by_cases hne : ct2 ≠ []
          · simp [hne]
          · simp [hne]

/-- Counterexample to C3: a response with one completed tool call and an
empty `current_text` still gets a text content block — the assistant
message content is `[Text "", ToolUse ...]`, so a text block is appended
even though `current_text` is empty. -/
theorem c3_counterexample :
    runAgentLoop (fun n _ => "error: Unknown tool: ".data ++ n)
      [.ok [.ok (.blockStart 0 (.toolUse "t1".data "read".data (Json.str []))),
            .ok (.blockDelta 0 (.inputJson
              (Json.render (Json.obj [("path".data, Json.str "a".data)])))),
            .ok (.blockStop 0),
            .ok .messageStop],
       .ok [.ok .messageStop]] []
    = ⟨[⟨"assistant".data, [.text [],
          .toolUse "t1".data "read".data (Json.obj [("path".data, Json.str "a".data)])]⟩,
        ⟨"user".data, [.toolResult "t1".data ("error: Unknown tool: read".data)]⟩],
       [.messageStart, .toolCallStart "t1".data "read".data, .messageStop,
        .toolExecuting "read".data, .toolResult "read".data ("error: Unknown tool: read".data),
        .messageStart, .messageStop],
       .ok, 2⟩ := rfl

/-- C3 as amended: when the drained response has completed tool calls,
the driver appends exactly one assistant message at that point whose
content is a text block holding `current_text` — always present, even
when `current_text` is empty — followed by one ToolUse block per
completed call, in aggregation order. -/
theorem c3_assistant_message_shape (rt : Str → List (Str × Json) → Str)
    (items : List (Except ApiErr SEvent))
    (rest : List (Except ApiErr (List (Except ApiErr SEvent))))
    (msgs : List Msg) (ct : Str) (cs : List Pend) (evs : List CoreEvent)
    (ct2 : Str) (cs2 : List Pend) (evs2 : List CoreEvent)
    (hdrain : drainItems items ct cs (evs ++ [CoreEvent.messageStart]) = (ct2, cs2, evs2, none))
    (hcomp : hasCompleted cs2 = true) :
    ∃ tail, (runLoop rt (.ok items :: rest) msgs ct cs evs).msgs
      = msgs ++ (⟨"assistant".data, CBlockOut.text ct2 ::
          (takeCompleted cs2).1.map (fun c => .toolUse c.id c.name c.input)⟩ : Msg) :: tail := by
  simp only [runLoop, hdrain, hcomp, if_pos]
  set calls := (takeCompleted cs2).1 with hcalls
  set amsg : Msg := ⟨"assistant".data,
    CBlockOut.text ct2 :: calls.map (fun c => .toolUse c.id c.name c.input)⟩ with hamsg
  obtain ⟨t1, ht1⟩ := execCalls_msgs_extends rt calls (msgs ++ [amsg]) evs2
  match he : execCalls rt calls (msgs ++ [amsg]) evs2 with
  | (msgs3, evs3, some e) =>
    have h3 : msgs3 = (msgs ++ [amsg]) ++ t1 := by rw [he] at ht1; exact ht1
    exact ⟨t1, by simp [h3]⟩
  | (msgs3, evs3, none) =>
    obtain ⟨t2, ht2⟩ := runLoop_msgs_extends rt rest msgs3 [] ([] : List Pend) evs3
    have h3 : msgs3 = (msgs ++ [amsg]) ++ t1 := by rw [he] at ht1; exact ht1
    refine ⟨t1 ++ t2, ?_⟩
    rw [h3] at ht2 ⊢
    simpa using ht2

/-- Witness for the amended C3: concrete one-call round with empty
accumulated text. -/
theorem c3_assistant_message_shape_witness :
    ∃ tail, (runLoop (fun n _ => "error: Unknown tool: ".data ++ n)
      [.ok [.ok (.blockStart 0 (.toolUse "t1".data "read".data (Json.str []))),
            .ok (.blockDelta 0 (.inputJson
              (Json.render (Json.obj [("path".data, Json.str "a".data)])))),
            .ok (.blockStop 0),
            .ok .messageStop]] [] [] [] []).msgs
      = [] ++ (⟨"assistant".data, CBlockOut.text [] ::
          (takeCompleted [⟨"t1".data, "read".data,
            Json.render (Json.obj [("path".data, Json.str "a".data)]), true⟩]).1.map
              (fun c => .toolUse c.id c.name c.input)⟩ : Msg) :: tail :=
  c3_assistant_message_shape (fun n _ => "error: Unknown tool: ".data ++ n)
    [.ok (.blockStart 0 (.toolUse "t1".data "read".data (Json.str []))),
     .ok (.blockDelta 0 (.inputJson
       (Json.render (Json.obj [("path".data, Json.str "a".data)])))),
     .ok (.blockStop 0),
     .ok .messageStop] [] [] [] [] []
    [] [⟨"t1".data, "read".data,
      Json.render (Json.obj [("path".data, Json.str "a".data)]), true⟩]
    [.messageStart, .toolCallStart "t1".data "read".data, .messageStop]
    rfl rfl

/-! Framing lemmas for the decoder. -/

theorem splitComplete_noNewline : ∀ (l : Str), '\n' ∉ l → splitComplete l = ([], l) := by
  intro l
  induction l with
  | nil => intro _; rfl
  | cons c rest ih =>
    intro h
    have hc : c ≠ '\n' := fun he => h (he ▸ List.mem_cons_self c rest)
    have hr : '\n' ∉ rest := fun hm => h (List.mem_cons_of_mem c hm)
    simp only [splitComplete, if_neg hc, ih hr]

theorem splitComplete_rem_noNewline : ∀ (l : Str), '\n' ∉ (splitComplete l).2 := by
  intro l
  induction l with
  | nil => simp [splitComplete]
  | cons c rest ih =>
    by_cases hc : c = '\n'
    · simp only [splitComplete, if_pos hc]
      exact ih
    · simp only [splitComplete, if_neg hc]
      match h : (splitComplete rest).1 with
      | [] =>
        simp only []
        intro hm
        rcases List.mem_cons.mp hm with he | hm2
        · exact hc he.symm
        · exact ih hm2
      | l2 :: ls =>
        simp only []
        exact ih

theorem splitComplete_cons (c : Char) (rest : Str) :
    splitComplete (c :: rest)
      = if c = '\n' then ([] :: (splitComplete rest).1, (splitComplete rest).2)
        else match (splitComplete rest).1 with
          | [] => ([], c :: (splitComplete rest).2)
          | l :: ls => ((c :: l) :: ls, (splitComplete rest).2) := rfl

theorem splitComplete_line (a b : Str) (h : '\n' ∉ a) :
    splitComplete (a ++ '\n' :: b) = (a :: (splitComplete b).1, (splitComplete b).2) := by
  induction a with
  | nil => simp [splitComplete_cons]
  | cons c a2 ih =>
    have hc : c ≠ '\n' := fun he => h (he ▸ List.mem_cons_self c a2)
    have ha : '\n' ∉ a2 := fun hm => h (List.mem_cons_of_mem c hm)
    rw [List.cons_append, splitComplete_cons, if_neg hc, ih ha]

theorem splitComplete_append (a b : Str) :
    splitComplete (a ++ b)
      = ((splitComplete a).1 ++ (splitComplete ((splitComplete a).2 ++ b)).1,
         (splitComplete ((splitComplete a).2 ++ b)).2) := by
  induction a with
  | nil => simp [splitComplete]
  | cons c a2 ih =>
    by_cases hc : c = '\n'
    · subst hc
      rw [List.cons_append, splitComplete_cons, if_pos rfl, ih, splitComplete_cons, if_pos rfl]
      simp
    · rw [List.cons_append, splitComplete_cons, if_neg hc, ih, splitComplete_cons, if_neg hc]
      match h : (splitComplete a2).1 with
      | [] =>
        simp only [List.nil_append, Prod.mk.eta]
        rw [List.cons_append, splitComplete_cons, if_neg hc]
      | l :: ls =>
        simp [List.cons_append, List.append_assoc]

theorem decodeStream_ok_flatten :
    ∀ (cs : List Str) (buf : Str), '\n' ∉ buf →
      decodeStream (cs.map Except.ok) buf
        = ((splitComplete (buf ++ cs.flatten)).1).filterMap processLine := by
  intro cs
  induction cs with
  | nil =>
    intro buf hb
    simp [decodeStream, splitComplete_noNewline buf hb]
  | cons c cs ih =>
    intro buf hb
    have hrem : '\n' ∉ (splitComplete (buf ++ c)).2 := splitComplete_rem_noNewline _
    calc decodeStream ((c :: cs).map Except.ok) buf
        = (splitComplete (buf ++ c)).1.filterMap processLine
            ++ decodeStream (cs.map Except.ok) (splitComplete (buf ++ c)).2 := rfl
      _ = (splitComplete (buf ++ c)).1.filterMap processLine
            ++ (splitComplete ((splitComplete (buf ++ c)).2 ++ cs.flatten)).1.filterMap
                processLine := by rw [ih _ hrem]
      _ = ((splitComplete (buf ++ (c :: cs).flatten)).1).filterMap processLine := by
            rw [List.flatten_cons, ← List.append_assoc, splitComplete_append (buf ++ c)]
            simp [List.filterMap_append]

/-- C10: the stream decoder is chunking-invariant — for any two ways of
splitting a byte sequence into chunks at UTF-8 code-point boundaries
(chunk sequences with the same concatenation), decoding yields exactly
the same sequence of events and parse errors, since framing is driven
solely by newline positions in the rolling buffer. -/
theorem c10_chunking_invariance (cs1 cs2 : List Str) (h : cs1.flatten = cs2.flatten) :
    decodeStream (cs1.map Except.ok) [] = decodeStream (cs2.map Except.ok) [] := by
  rw [decodeStream_ok_flatten cs1 [] (by simp), decodeStream_ok_flatten cs2 [] (by simp), h]

/-- Witness for C10: two different chunkings of the same SSE bytes decode
to the same items. -/
theorem c10_chunking_invariance_witness :
    (["data: [DO".data, "NE]\ndata: x".data] : List Str).flatten
      = (["data: [DONE]\n".data, "data: x".data] : List Str).flatten
    ∧ decodeStream ((["data: [DO".data, "NE]\ndata: x".data] : List Str).map Except.ok) []
      = decodeStream ((["data: [DONE]\n".data, "data: x".data] : List Str).map Except.ok) [] :=
  ⟨rfl, c10_chunking_invariance ["data: [DO".data, "NE]\ndata: x".data]
    ["data: [DONE]\n".data, "data: x".data] rfl⟩

set_option maxRecDepth 8000 in
/-- Counterexample to C4: the decoder does produce one ParseError item
for the malformed `data:` line and keeps decoding the next well-formed
line — but the agent loop propagates the ParseError item (`?` on stream
items) and the invocation ends with that error; no Error StreamEvent is
forwarded to the renderer and the session does not continue. -/
theorem c4_counterexample :
    decodeStream [.ok ("data: notjson\ndata: ".data ++ Json.render (Json.obj
        [("type".data, Json.str "content_block_delta".data), ("index".data, Json.num 0),
         ("delta".data, Json.obj [("type".data, Json.str "text_delta".data),
            ("text".data, Json.str "hi".data)])]) ++ "\n".data)] []
      = [.error (.parse "Failed to parse SSE data".data),
         .ok (.blockDelta 0 (.text "hi".data))]
    ∧ runAgentLoop (fun n _ => n)
        [.ok [.error (.parse "Failed to parse SSE data".data),
              .ok (.blockDelta 0 (.text "hi".data))]] []
      = ⟨[], [.messageStart], .err (.parse "Failed to parse SSE data".data), 1⟩ :=
  ⟨rfl, rfl⟩

/-- C4 as amended: a malformed `data:` payload yields exactly one
ParseError item and the decoder keeps decoding subsequent lines
independently; the agent loop, upon receiving the ParseError item,
returns it as the loop error (the invocation ends, history untouched)
rather than forwarding an Error StreamEvent and continuing. -/
theorem c4_parse_error_frame (payload l2 : Str)
    (rt : Str → List (Str × Json) → Str) (restItems : List (Except ApiErr SEvent))
    (restScript : List (Except ApiErr (List (Except ApiErr SEvent))))
    (msgs : List Msg) (ct : Str) (cs : List Pend) (evs : List CoreEvent)
    (hp : parseJson payload = none) (hd : payload ≠ "[DONE]".data)
    (h1 : '\n' ∉ payload) (h2 : '\n' ∉ l2) :
    processLine ("data: ".data ++ payload)
      = some (.error (.parse "Failed to parse SSE data".data))
    ∧ decodeStream [.ok (("data: ".data ++ payload) ++ '\n' :: (l2 ++ ['\n']))] []
      = .error (.parse "Failed to parse SSE data".data) :: List.filterMap processLine [l2]
    ∧ runLoop rt (.ok (.error (.parse "Failed to parse SSE data".data) :: restItems)
          :: restScript) msgs ct cs evs
      = ⟨msgs, evs ++ [CoreEvent.messageStart],
         .err (.parse "Failed to parse SSE data".data), 1⟩ := by
  have hline : processLine ("data: ".data ++ payload)
      = some (.error (.parse "Failed to parse SSE data".data)) := by
    have hdata : "data: ".data = ['d', 'a', 't', 'a', ':', ' '] := rfl
    rw [hdata]
    simp [processLine, dropDataTag, hp, hd, List.cons_append]
  refine ⟨hline, ?_, rfl⟩
  have hnl1 : '\n' ∉ ("data: ".data ++ payload) := by
    intro hm
    rcases List.mem_append.mp hm with hm1 | hm2
    · revert hm1; decide
    · exact h1 hm2
  have hsplit : splitComplete ((("data: ".data ++ payload) ++ '\n' :: (l2 ++ ['\n'])))
      = (("data: ".data ++ payload) :: (splitComplete (l2 ++ ['\n'])).1,
         (splitComplete (l2 ++ ['\n'])).2) :=
    splitComplete_line _ _ hnl1
  have hsplit2 : splitComplete (l2 ++ ['\n']) = ([l2], []) := by
    have := splitComplete_line l2 [] h2
    simpa [splitComplete] using this
  have hchunk := decodeStream_ok_flatten
    [("data: ".data ++ payload) ++ '\n' :: (l2 ++ ['\n'])] [] (by simp)
  simp only [List.map_cons, List.map_nil] at hchunk
  rw [hchunk]
  simp only [List.flatten_cons, List.flatten_nil, List.append_nil, List.nil_append]
  rw [hsplit, hsplit2]
  have hline2 : processLine ('d' :: 'a' :: 't' :: 'a' :: ':' :: ' ' :: payload)
      = some (.error (.parse "Failed to parse SSE data".data)) := hline
  simp [List.filterMap_cons, hline2]

/-- Witness for the amended C4 with payload `notjson` followed by a
well-formed `[DONE]` line. -/
theorem c4_parse_error_frame_witness :
    processLine ("data: ".data ++ "notjson".data)
      = some (.error (.parse "Failed to parse SSE data".data))
    ∧ decodeStream
        [.ok (("data: ".data ++ "notjson".data) ++ '\n' :: ("data: [DONE]".data ++ ['\n']))] []
      = .error (.parse "Failed to parse SSE data".data)
        :: List.filterMap processLine ["data: [DONE]".data]
    ∧ runLoop (fun n _ => n)
        (.ok (.error (.parse "Failed to parse SSE data".data) :: []) :: []) [] [] [] []
      = ⟨[], [] ++ [CoreEvent.messageStart], .err (.parse "Failed to parse SSE data".data), 1⟩ :=
  c4_parse_error_frame "notjson".data "data: [DONE]".data (fun n _ => n) [] [] [] [] [] []
    rfl (by decide) (by decide) (by decide)

theorem drain_no_toolstart_collector_empty :
    ∀ (items : List (Except ApiErr SEvent)) (ct : Str) (evs : List CoreEvent),
      (∀ it ∈ items, ∀ i id nm inp, it ≠ .ok (.blockStart i (.toolUse id nm inp))) →
      (drainItems items ct [] evs).2.1 = [] := by
  intro items
  induction items with
  | nil => intro ct evs _; rfl
  | cons it rest ih =>
    intro ct evs hno
    have hrest : ∀ it2 ∈ rest, ∀ i id nm inp,
        it2 ≠ Except.ok (SEvent.blockStart i (.toolUse id nm inp)) :=
      fun it2 h2 => hno it2 (List.mem_cons_of_mem _ h2)
    match it with
    | .error e => rfl
    | .ok .messageStop => rfl
    | .ok .messageStart => exact ih ct evs hrest
    | .ok .messageDelta => exact ih ct evs hrest
    | .ok (.error e) => exact ih ct _ hrest
    | .ok (.blockDelta i (.text t)) => exact ih _ _ hrest
    | .ok (.blockDelta i (.inputJson pj)) => exact ih _ _ hrest
    | .ok (.blockStop i) => exact ih _ _ hrest
    | .ok (.blockStart i (.text t)) => exact ih _ _ hrest
    | .ok (.blockStart i (.toolUse id nm inp)) =>
      exact absurd rfl (hno _ (List.mem_cons_self _ _) i id nm inp)

/-- Counterexample to C8: a response whose events carry the non-empty
text `hello` and contain no completed tool-use block (the only tool-use
block, at index 1, never receives a ContentBlockStop) — yet, because a
ContentBlockStop at index 0 marks the padding placeholder slot
completed, the driver treats the round as having a completed tool call:
it appends an assistant message that also carries a phantom ToolUse
block, appends a tool-result message, and issues a second request
instead of terminating after one round with a single text message. -/
theorem c8_counterexample :
    runAgentLoop (fun n _ => "error: Unknown tool: ".data ++ n)
      [.ok [.ok (.blockStart 1 (.toolUse "t1".data "bash".data (Json.str []))),
            .ok (.blockDelta 0 (.inputJson
              (Json.render (Json.obj [("cmd".data, Json.str "ls".data)])))),
            .ok (.blockStop 0),
            .ok (.blockDelta 0 (.text "hello".data)),
            .ok .messageStop],
       .ok [.ok .messageStop]] []
    = ⟨[⟨"assistant".data, [.text "hello".data,
          .toolUse [] [] (Json.obj [("cmd".data, Json.str "ls".data)])]⟩,
        ⟨"user".data, [.toolResult [] ("error: Unknown tool: ".data)]⟩],
       [.messageStart, .toolCallStart "t1".data "bash".data, .textDelta "hello".data,
        .messageStop, .toolExecuting [], .toolResult [] ("error: Unknown tool: ".data),
        .messageStart, .messageStop],
       .ok, 2⟩ := rfl

/-- C8 as amended: (1) for a response whose events contain no tool-use
ContentBlockStart at all and whose drained text is non-empty, the loop
terminates after that single round having appended exactly one assistant
message with exactly the accumulated text; (2) the loop issues a further
request only when the drain of the previous round left the collector
reporting completed calls (`has_completed_calls`). -/
theorem c8_no_tool_round_terminates (rt : Str → List (Str × Json) → Str)
    (items : List (Except ApiErr SEvent))
    (rest : List (Except ApiErr (List (Except ApiErr SEvent))))
    (msgs : List Msg) (evs : List CoreEvent)
    (ct2 : Str) (cs2 : List Pend) (evs2 : List CoreEvent)
    (hnostart : ∀ it ∈ items, ∀ i id nm inp,
      it ≠ Except.ok (SEvent.blockStart i (.toolUse id nm inp)))
    (hdrain : drainItems items [] [] (evs ++ [CoreEvent.messageStart]) = (ct2, cs2, evs2, none))
    (hne : ct2 ≠ []) :
    runLoop rt (.ok items :: rest) msgs [] [] evs
      = ⟨msgs ++ [⟨"assistant".data, [.text ct2]⟩], evs2, .ok, 1⟩
    ∧ ∀ (script : List (Except ApiErr (List (Except ApiErr SEvent))))
        (msgs2 : List Msg) (ctx : Str) (csx : List Pend) (evsx : List CoreEvent),
        2 ≤ (runLoop rt script msgs2 ctx csx evsx).requests →
        ∃ items2 ct3 cs3 evs3,
          script.head? = some (.ok items2)
          ∧ drainItems items2 ctx csx (evsx ++ [CoreEvent.messageStart]) = (ct3, cs3, evs3, none)
          ∧ hasCompleted cs3 = true := by
  constructor
  · have h0 := drain_no_toolstart_collector_empty items [] (evs ++ [CoreEvent.messageStart])
      hnostart
    rw [hdrain] at h0
    subst h0
    simp only [runLoop, hdrain]
    simp [hasCompleted, hne]
  · intro script msgs2 ctx csx evsx hreq
    match script with
    | [] => simp [runLoop] at hreq
    | .error e :: rest2 => simp [runLoop] at hreq
    | .ok items2 :: rest2 =>
      match hd2 : drainItems items2 ctx csx (evsx ++ [CoreEvent.messageStart]) with
      | (ct3, cs3, evs3, some e) =>
        exfalso
        simp [runLoop, hd2] at hreq
      | (ct3, cs3, evs3, none) =>
        by_cases hc : hasCompleted cs3
        · exact ⟨items2, ct3, cs3, evs3, rfl, hd2, hc⟩
        · exfalso
          simp only [runLoop, hd2] at hreq
          by_cases hct : ct3 = [] <;> simp [hc, hct] at hreq

/-- Witness for the amended C8: a pure-text round (part 1) and the
completed-call requirement for the phantom two-round script (part 2). -/
theorem c8_no_tool_round_terminates_witness :
    runLoop (fun n _ => "error: Unknown tool: ".data ++ n)
        [.ok [.ok (.blockDelta 0 (.text "hi".data)), .ok .messageStop]] [] [] [] []
      = ⟨[⟨"assistant".data, [.text "hi".data]⟩],
         [.messageStart, .textDelta "hi".data, .messageStop], .ok, 1⟩
    ∧ ∃ items2 ct3 cs3 evs3,
        ([.ok [.ok (.blockStart 1 (.toolUse "t1".data "bash".data (Json.str []))),
               .ok (.blockDelta 0 (.inputJson
                 (Json.render (Json.obj [("cmd".data, Json.str "ls".data)])))),
               .ok (.blockStop 0),
               .ok (.blockDelta 0 (.text "hello".data)),
               .ok .messageStop],
          .ok [.ok .messageStop]] : List (Except ApiErr (List (Except ApiErr SEvent)))).head?
          = some (.ok items2)
        ∧ drainItems items2 [] [] ([] ++ [CoreEvent.messageStart]) = (ct3, cs3, evs3, none)
        ∧ hasCompleted cs3 = true := by
  have T := c8_no_tool_round_terminates (fun n _ => "error: Unknown tool: ".data ++ n)
    [.ok (.blockDelta 0 (.text "hi".data)), .ok .messageStop] [] [] []
    "hi".data [] [.messageStart, .textDelta "hi".data, .messageStop]
    (by intro it hit i id nm inp; fin_cases hit <;> simp)
    rfl (by decide)
  exact ⟨T.1, T.2
    [.ok [.ok (.blockStart 1 (.toolUse "t1".data "bash".data (Json.str []))),
          .ok (.blockDelta 0 (.inputJson
            (Json.render (Json.obj [("cmd".data, Json.str "ls".data)])))),
          .ok (.blockStop 0),
          .ok (.blockDelta 0 (.text "hello".data)),
          .ok .messageStop],
     .ok [.ok .messageStop]] [] [] [] [] (by decide)⟩
